import Mathlib

/-!
Verification of the hotel-booking slot-validation and date-normalization
logic (src/actions/actions.py, class ValidateHotelBookingForm).

The Python code is shallowly embedded: strings are Lean `String`s processed
as `List Char`; `datetime` values are a `PyDate` (year, month, day) plus,
for the wall-clock reference, a time-of-day counter (`NowT`); every Python
operation that can raise (`strptime`, `datetime.replace`, day validation)
is modelled as an `Option`, with the corresponding `except` handler being
the `none` branch of the caller.  The regular expressions of the source are
modelled by hand-written matchers that reproduce the leftmost-search and
greedy/backtracking behaviour of `re.search` / `re.match` on exactly the
patterns the source uses.  `datetime.now()` is modelled by passing a `NowT`
explicitly; the validator entry point that samples the clock more than once
receives a list of samples, consumed in execution order.
-/

namespace RasaBooking

/-! ## Character helpers (ASCII model of the Python string methods) -/

def isDigitC (c : Char) : Bool := decide ('0' ≤ c ∧ c ≤ '9')

def isLowerC (c : Char) : Bool := decide ('a' ≤ c ∧ c ≤ 'z')

def isUpperC (c : Char) : Bool := decide ('A' ≤ c ∧ c ≤ 'Z')

def isAlphaC (c : Char) : Bool := isLowerC c || isUpperC c

/-- Whitespace in the sense of the str.strip / regex \s class. -/
def isWsC (c : Char) : Bool :=
  decide (c = ' ' ∨ c = '\t' ∨ c = '\n' ∨ c = '\r' ∨ c = '\x0b' ∨ c = '\x0c')

/-- Word characters in the sense of the regex \w class (ASCII model). -/
def isWordC (c : Char) : Bool := isAlphaC c || isDigitC c || c = '_'

def lowerC (c : Char) : Char :=
  match c with
  | 'A' => 'a' | 'B' => 'b' | 'C' => 'c' | 'D' => 'd' | 'E' => 'e'
  | 'F' => 'f' | 'G' => 'g' | 'H' => 'h' | 'I' => 'i' | 'J' => 'j'
  | 'K' => 'k' | 'L' => 'l' | 'M' => 'm' | 'N' => 'n' | 'O' => 'o'
  | 'P' => 'p' | 'Q' => 'q' | 'R' => 'r' | 'S' => 's' | 'T' => 't'
  | 'U' => 'u' | 'V' => 'v' | 'W' => 'w' | 'X' => 'x' | 'Y' => 'y'
  | 'Z' => 'z' | c => c

def upperC (c : Char) : Char :=
  match c with
  | 'a' => 'A' | 'b' => 'B' | 'c' => 'C' | 'd' => 'D' | 'e' => 'E'
  | 'f' => 'F' | 'g' => 'G' | 'h' => 'H' | 'i' => 'I' | 'j' => 'J'
  | 'k' => 'K' | 'l' => 'L' | 'm' => 'M' | 'n' => 'N' | 'o' => 'O'
  | 'p' => 'P' | 'q' => 'Q' | 'r' => 'R' | 's' => 'S' | 't' => 'T'
  | 'u' => 'U' | 'v' => 'V' | 'w' => 'W' | 'x' => 'X' | 'y' => 'Y'
  | 'z' => 'Z' | c => c

def digitVal (c : Char) : Nat := c.toNat - 48

/-- str.lower of Python, on the character list. -/
def pyLowerL (l : List Char) : List Char := l.map lowerC

/-- str.strip of Python (strip leading and trailing whitespace). -/
def pyStripL (l : List Char) : List Char :=
  (((l.dropWhile isWsC).reverse).dropWhile isWsC).reverse

def natOfDigits (l : List Char) : Nat :=
  l.foldl (fun a c => 10 * a + digitVal c) 0

/-- Whether `p` is a prefix of `t`. -/
def leadsWith : List Char → List Char → Bool
  | [], _ => true
  | _ :: _, [] => false
  | p :: ps, c :: cs => p = c && leadsWith ps cs

/-- Whether `p` occurs as a contiguous substring of `t` (regex search of a
literal pattern, as used for the "next week" test `"next week" in s`). -/
def containsSub (p : List Char) : List Char → Bool
  | [] => leadsWith p []
  | c :: ts => leadsWith p (c :: ts) || containsSub p ts

/-! ## Dates -/

/-- A `datetime.date`-like value (the embedded code only ever reads the
year, month and day fields of the datetimes it builds). -/
structure PyDate where
  year : Nat
  month : Nat
  day : Nat
  deriving DecidableEq, Repr

/-- The wall-clock reference `datetime.now()`: a calendar date plus an
abstract count of time units elapsed since midnight (`tod = 0` means
exactly midnight).  Dates produced by `strptime` carry midnight, so a
`parsed < today` comparison needs only this much of the time of day. -/
structure NowT where
  date : PyDate
  tod : Nat
  deriving DecidableEq, Repr

def isLeapB (y : Nat) : Bool :=
  y % 4 == 0 && (y % 100 != 0 || y % 400 == 0)

def daysInMonth (y m : Nat) : Nat :=
  match m with
  | 1 => 31
  | 2 => if isLeapB y then 29 else 28
  | 3 => 31
  | 4 => 30
  | 5 => 31
  | 6 => 30
  | 7 => 31
  | 8 => 31
  | 9 => 30
  | 10 => 31
  | 11 => 30
  | 12 => 31
  | _ => 0

def nextDay (d : PyDate) : PyDate :=
  if d.day < daysInMonth d.year d.month then ⟨d.year, d.month, d.day + 1⟩
  else if d.month < 12 then ⟨d.year, d.month + 1, 1⟩
  else ⟨d.year + 1, 1, 1⟩

/-- `d + timedelta(days = n)`. -/
def addDays : Nat → PyDate → PyDate
  | 0, d => d
  | n + 1, d => addDays n (nextDay d)

def digitChar : Nat → Char
  | 0 => '0' | 1 => '1' | 2 => '2' | 3 => '3' | 4 => '4'
  | 5 => '5' | 6 => '6' | 7 => '7' | 8 => '8' | _ => '9'

/-- strftime %d: the day zero-padded to two digits. -/
def pad2 (n : Nat) : List Char := [digitChar (n / 10 % 10), digitChar (n % 10)]

/-- strftime %b: the capitalized three-letter month abbreviation. -/
def monthAbb : Nat → List Char
  | 1 => ['J', 'a', 'n'] | 2 => ['F', 'e', 'b'] | 3 => ['M', 'a', 'r']
  | 4 => ['A', 'p', 'r'] | 5 => ['M', 'a', 'y'] | 6 => ['J', 'u', 'n']
  | 7 => ['J', 'u', 'l'] | 8 => ['A', 'u', 'g'] | 9 => ['S', 'e', 'p']
  | 10 => ['O', 'c', 't'] | 11 => ['N', 'o', 'v'] | 12 => ['D', 'e', 'c']
  | _ => []

/-- strftime("%d %b") of the source. -/
def fmtDate (d : PyDate) : String := ⟨pad2 d.day ++ ' ' :: monthAbb d.month⟩

def dateLtB (a b : PyDate) : Bool :=
  if a.year < b.year then true
  else if b.year < a.year then false
  else if a.month < b.month then true
  else if b.month < a.month then false
  else decide (a.day < b.day)

/-- `parsed < today` where `parsed` is a midnight datetime and `today` is
the sampled clock. -/
def parsedLtNow (d : PyDate) (n : NowT) : Bool :=
  if dateLtB d n.date then true
  else if d = n.date then decide (0 < n.tod)
  else false

/-! ## strptime

Model of `datetime.strptime(s, fmt)` for the four formats the source uses:
"%d %b", "%d %B", "%b %d", "%B %d".  `%d` matches the regex alternation
`3[01]|[12]\d|0[1-9]|[1-9]` (the alternatives are tried in this order),
whitespace in the format matches one or more whitespace characters, month
names are matched case-insensitively, the whole input must be consumed,
and the day is finally validated against the default year 1900 (Python
builds `datetime(1900, month, day)`, which raises for an invalid day). -/

def abbrevTable : List (List Char × Nat) :=
  [(['j', 'a', 'n'], 1), (['f', 'e', 'b'], 2), (['m', 'a', 'r'], 3),
   (['a', 'p', 'r'], 4), (['m', 'a', 'y'], 5), (['j', 'u', 'n'], 6),
   (['j', 'u', 'l'], 7), (['a', 'u', 'g'], 8), (['s', 'e', 'p'], 9),
   (['o', 'c', 't'], 10), (['n', 'o', 'v'], 11), (['d', 'e', 'c'], 12)]

def fullTable : List (List Char × Nat) :=
  [("september".data, 9), ("november".data, 11), ("december".data, 12),
   ("january".data, 1), ("february".data, 2), ("october".data, 10),
   ("august".data, 8), ("march".data, 3), ("april".data, 4),
   ("june".data, 6), ("july".data, 7), ("may".data, 5)]

/-- Case-insensitive prefix test: `p` (already lowercase) against `t`. -/
def leadsWithLow : List Char → List Char → Bool
  | [], _ => true
  | _ :: _, [] => false
  | p :: ps, c :: cs => p = lowerC c && leadsWithLow ps cs

/-- Match one month name from the table (case-insensitively) at the head of
`l`; the names are mutually prefix-free, so at most one entry matches. -/
def matchMonth : List (List Char × Nat) → List Char → Option (Nat × List Char)
  | [], _ => none
  | (nm, m) :: rest, l =>
    if leadsWithLow nm l then some (m, l.drop nm.length) else matchMonth rest l

/-- The `%d` alternation: candidate (value, rest) pairs in the order the
regex alternatives `3[01]`, `[12]\d`, `0[1-9]`, `[1-9]` are tried. -/
def dayCands : List Char → List (Nat × List Char)
  | [] => []
  | [c] => if isDigitC c && c != '0' then [(digitVal c, [])] else []
  | c1 :: c2 :: rest =>
    (if c1 == '3' && (c2 == '0' || c2 == '1') then
       [(30 + digitVal c2, rest)]
     else if (c1 == '1' || c1 == '2') && isDigitC c2 then
       [(10 * digitVal c1 + digitVal c2, rest)]
     else if c1 == '0' && isDigitC c2 && c2 != '0' then
       [(digitVal c2, rest)]
     else []) ++
    (if isDigitC c1 && c1 != '0' then [(digitVal c1, c2 :: rest)] else [])

/-- `\s+` of the format: consume one or more whitespace characters. -/
def wsRun1 (l : List Char) : Option (List Char) :=
  match l with
  | c :: rest => if isWsC c then some (rest.dropWhile isWsC) else none
  | [] => none

/-- Day-first formats ("%d %b" / "%d %B"): try each day candidate, then
whitespace, then a month name, then the end of the input. -/
def dayFirstGo (tbl : List (List Char × Nat)) :
    List (Nat × List Char) → Option (Nat × Nat)
  | [] => none
  | (d, rest) :: more =>
    match wsRun1 rest with
    | some r1 =>
      match matchMonth tbl r1 with
      | some (m, r2) => if r2 = [] then some (m, d) else dayFirstGo tbl more
      | none => dayFirstGo tbl more
    | none => dayFirstGo tbl more

/-- Month-first formats ("%b %d" / "%B %d"). -/
def monthFirstGo : List (Nat × List Char) → Option Nat
  | [] => none
  | (d, rest) :: more => if rest = [] then some d else monthFirstGo more

/-- The (month, day) pair recognised by one strptime format. -/
def strptimeFields (dayFirst full : Bool) (l : List Char) :
    Option (Nat × Nat) :=
  let tbl := if full then fullTable else abbrevTable
  if dayFirst then
    dayFirstGo tbl (dayCands l)
  else
    match matchMonth tbl l with
    | some (m, r1) =>
      match wsRun1 r1 with
      | some r2 =>
        match monthFirstGo (dayCands r2) with
        | some d => some (m, d)
        | none => none
      | none => none
    | none => none

/-- Final construction `datetime(1900, month, day)`: validates the day
against the (non-leap) default year 1900. -/
def mk1900 (md : Nat × Nat) : Option PyDate :=
  if 1 ≤ md.2 ∧ md.2 ≤ daysInMonth 1900 md.1 then some ⟨1900, md.1, md.2⟩
  else none

/-- `datetime.strptime(s, fmt)` for one of the four formats. -/
def strptimePy (dayFirst full : Bool) (l : List Char) : Option PyDate :=
  match strptimeFields dayFirst full l with
  | some md => mk1900 md
  | none => none

/-- `parsed.replace(year=today.year)`, then `if parsed < today:` bump to
`today.year + 1`; a `replace` onto an invalid day raises (`none`). -/
def replaceBump (n : NowT) (p : PyDate) : Option PyDate :=
  if p.day ≤ daysInMonth n.date.year p.month then
    if parsedLtNow ⟨n.date.year, p.month, p.day⟩ n then
      if p.day ≤ daysInMonth (n.date.year + 1) p.month then
        some ⟨n.date.year + 1, p.month, p.day⟩
      else none
    else some ⟨n.date.year, p.month, p.day⟩
  else none

/-- The explicit-date step shared by `parse_date` (step 3) and
`calculate_checkout`: try the four formats "%d %b", "%d %B", "%b %d",
"%B %d" in order; on a parse the year is resolved against `n` (a
`ValueError` from the year replacement falls to the next format, like the
`continue` of the source). -/
def stepThreeDate (n : NowT) (l : List Char) : Option PyDate :=
  match (strptimePy true false l).bind (replaceBump n) with
  | some p => some p
  | none =>
    match (strptimePy true true l).bind (replaceBump n) with
    | some p => some p
    | none =>
      match (strptimePy false false l).bind (replaceBump n) with
      | some p => some p
      | none => (strptimePy false true l).bind (replaceBump n)

/-! ## parse_date -/

/-- Step 1 of `parse_date`: the literal relative terms, checked in source
order; the result is the number of days added to today (the month/year
inference of the later steps never runs for these). -/
def relKind (t : List Char) : Option Nat :=
  if t = "today".data then some 0
  else if t = "tomorrow".data ∨ t = "tmrw".data ∨ t = "tommorow".data then some 1
  else if t = "day after tomorrow".data ∨ t = "day after tmrw".data then some 2
  else if containsSub "next week".data t then some 7
  else none

/-- Ordinal suffixes st / nd / rd / th as a character pair. -/
def sufPair (x y : Char) : Bool :=
  (x == 's' && y == 't') || (x == 'n' && y == 'd') ||
  (x == 'r' && y == 'd') || (x == 't' && y == 'h')

/-- `re.match(r'^(\d{1,2})(st|nd|rd|th)?$', s)`: the whole string is one or
two digits optionally followed by an ordinal suffix; returns the digit
group as a number. -/
def dayMatchFn (t : List Char) : Option Nat :=
  match t with
  | [a] => if isDigitC a then some (digitVal a) else none
  | [a, b] =>
    if isDigitC a && isDigitC b then some (10 * digitVal a + digitVal b)
    else none
  | [a, b, c] => if isDigitC a && sufPair b c then some (digitVal a) else none
  | [a, b, c, d] =>
    if isDigitC a && isDigitC b && sufPair c d then
      some (10 * digitVal a + digitVal b)
    else none
  | _ => none

/-- Step 2 of `parse_date`: resolve a bare day-of-month against the
current month when `today.day <= day`, else against the next month (year
rollover at December); `datetime.replace` onto a day that is invalid for
the target month raises (`none`), which the source catches and lets fall
through to step 3. -/
def step2Target (n : NowT) (d : Nat) : Option PyDate :=
  if n.date.day ≤ d then
    if 1 ≤ d ∧ d ≤ daysInMonth n.date.year n.date.month then
      some ⟨n.date.year, n.date.month, d⟩
    else none
  else if n.date.month = 12 then
    if 1 ≤ d ∧ d ≤ daysInMonth (n.date.year + 1) 1 then
      some ⟨n.date.year + 1, 1, d⟩
    else none
  else
    if 1 ≤ d ∧ d ≤ daysInMonth n.date.year (n.date.month + 1) then
      some ⟨n.date.year, n.date.month + 1, d⟩
    else none

/-- Steps 3 and 4 of `parse_date`: the explicit-date formats, else the
(lowercased, stripped) input returned unchanged. -/
def stepThreeOr (n : NowT) (t : List Char) : String :=
  match stepThreeDate n t with
  | some p => fmtDate p
  | none => ⟨t⟩

/-- The body of `parse_date` after the `.lower().strip()` renormalisation. -/
def parseCore (n : NowT) (t : List Char) : String :=
  match relKind t with
  | some k => fmtDate (addDays k n.date)
  | none =>
    match dayMatchFn t with
    | some d =>
      if 1 ≤ d ∧ d ≤ 31 then
        match step2Target n d with
        | some tgt => fmtDate tgt
        | none => stepThreeOr n t
      else stepThreeOr n t
    | none => stepThreeOr n t

/-- `parse_date` of the source: `n` is the `datetime.now()` sample taken by
this call. -/
def parse_date (n : NowT) (s : String) : String :=
  if s.data = [] then "" else parseCore n (pyStripL (pyLowerL s.data))

/-! ## extract_date_range

The three range regexes, tried in source order over the lowercased text,
leftmost match first.  For each pattern the greedy sub-matches are
deterministic: every `\d{1,2}`, `\w+` or `\s+` that more input could feed
is followed by a character class disjoint from it, so a shorter
(backtracked) match fails immediately; the only consequence of greediness
that survives is that a digit run of three or more characters can never
start a `\d{1,2}` that is followed by `\s+` (both the two- and one-digit
prefixes leave a digit in front of the `\s+`). -/

/-- A digit run usable for `\d{1,2}` followed by more pattern: the leading
run must have length exactly 1 or 2. -/
def grabDay12 (t : List Char) : Option (List Char × List Char) :=
  let run := t.takeWhile isDigitC
  if run.length = 1 ∨ run.length = 2 then some (run, t.dropWhile isDigitC)
  else none

/-- `\s+` keeping the consumed characters (they are part of a capture in
the date-to-date pattern). -/
def wsSplit (l : List Char) : Option (List Char × List Char) :=
  match l with
  | c :: rest =>
    if isWsC c then some (c :: rest.takeWhile isWsC, rest.dropWhile isWsC)
    else none
  | [] => none

/-- `\w+` keeping the consumed characters. -/
def wordSplit (l : List Char) : Option (List Char × List Char) :=
  let run := l.takeWhile isWordC
  if run = [] then none else some (run, l.dropWhile isWordC)

/-- Literal "to". -/
def grabTo (l : List Char) : Option (List Char) :=
  if leadsWith "to".data l then some (l.drop 2) else none

/-- Pattern `(\d{1,2})\s+to\s+(\d{1,2})\s+(\w+)` at the head of `t`. -/
def matchP1 (t : List Char) : Option (List Char × List Char × List Char) :=
  match grabDay12 t with
  | none => none
  | some (d1, r1) =>
    match wsSplit r1 with
    | none => none
    | some (_, r2) =>
      match grabTo r2 with
      | none => none
      | some r3 =>
        match wsSplit r3 with
        | none => none
        | some (_, r4) =>
          match grabDay12 r4 with
          | none => none
          | some (d2, r5) =>
            match wsSplit r5 with
            | none => none
            | some (_, r6) =>
              match wordSplit r6 with
              | none => none
              | some (w, _) => some (d1, d2, w)

/-- Pattern `(\d{1,2}\s+\w+)\s+to\s+(\d{1,2}\s+\w+)` at the head of `t`;
each group captures its digits, inner whitespace and word verbatim. -/
def matchP2 (t : List Char) : Option (List Char × List Char) :=
  match grabDay12 t with
  | none => none
  | some (d1, r1) =>
    match wsSplit r1 with
    | none => none
    | some (ws1, r2) =>
      match wordSplit r2 with
      | none => none
      | some (w1, r3) =>
        match wsSplit r3 with
        | none => none
        | some (_, r4) =>
          match grabTo r4 with
          | none => none
          | some r5 =>
            match wsSplit r5 with
            | none => none
            | some (_, r6) =>
              match grabDay12 r6 with
              | none => none
              | some (d2, r7) =>
                match wsSplit r7 with
                | none => none
                | some (ws2, r8) =>
                  match wordSplit r8 with
                  | none => none
                  | some (w2, _) =>
                    some (d1 ++ ws1 ++ w1, d2 ++ ws2 ++ w2)

/-- Optional ordinal suffix `(?:st|nd|rd|th)?` kept inside the capture. -/
def grabSuf (l : List Char) : List Char × List Char :=
  match l with
  | x :: y :: r => if sufPair x y then ([x, y], r) else ([], l)
  | _ => ([], l)

/-- Pattern `(\d{1,2}(?:st|nd|rd|th)?)\s+to\s+(\d{1,2}(?:st|nd|rd|th)?)`
at the head of `t`.  The second group ends the pattern, so there its
`\d{1,2}` simply takes the first one or two digits of the run. -/
def matchP3 (t : List Char) : Option (List Char × List Char) :=
  match grabDay12 t with
  | none => none
  | some (d1, r1) =>
    let (s1, r1b) := grabSuf r1
    match wsSplit r1b with
    | none => none
    | some (_, r2) =>
      match grabTo r2 with
      | none => none
      | some r3 =>
        match wsSplit r3 with
        | none => none
        | some (_, r4) =>
          let run := r4.takeWhile isDigitC
          if run = [] then none
          else
            let d2 := run.take 2
            let (s2, _) := grabSuf (r4.drop d2.length)
            some (d1 ++ s1, d2 ++ s2)

/-- `re.search`: try the matcher at each position, leftmost first. -/
def searchG {α : Type} (m : List Char → Option α) : List Char → Option α
  | [] => m []
  | c :: ts =>
    match m (c :: ts) with
    | some r => some r
    | none => searchG m ts

/-- The raw check-in / check-out strings produced by the first matching
range shape (before normalization): for the shared-month shape the month
word is appended to both days. -/
def rangeGroups (t : List Char) : Option (List Char × List Char) :=
  match searchG matchP1 t with
  | some (a, b, w) => some (a ++ ' ' :: w, b ++ ' ' :: w)
  | none =>
    match searchG matchP2 t with
    | some (g1, g2) => some (g1, g2)
    | none =>
      match searchG matchP3 t with
      | some (g1, g2) => some (g1, g2)
      | none => none

/-- `extract_date_range`: `n1` and `n2` are the `datetime.now()` samples
taken by the two `parse_date` calls (check-in first). -/
def extract_date_range (n1 n2 : NowT) (text : String) :
    Option (String × String) :=
  match rangeGroups (pyLowerL text.data) with
  | some (a, b) => some (parse_date n1 ⟨a⟩, parse_date n2 ⟨b⟩)
  | none => none

/-! ## extract_duration -/

/-- `for\s+(\d+)\s+days?` (or nights) at the head of `t`. -/
def matchFor (word : List Char) (t : List Char) : Option Nat :=
  if leadsWith "for".data t then
    match wsRun1 (t.drop 3) with
    | none => none
    | some r1 =>
      let run := r1.takeWhile isDigitC
      if run = [] then none
      else
        match wsRun1 (r1.dropWhile isDigitC) with
        | none => none
        | some r2 =>
          if leadsWith word r2 then some (natOfDigits run) else none
  else none

/-- `(\d+)\s+days?\s+stay` (or nights) at the head of `t`. -/
def matchStay (word : List Char) (t : List Char) : Option Nat :=
  let run := t.takeWhile isDigitC
  if run = [] then none
  else
    match wsRun1 (t.dropWhile isDigitC) with
    | none => none
    | some r1 =>
      if leadsWith word r1 then
        let r2 := r1.drop word.length
        let r3 := match r2 with
          | 's' :: r => r
          | _ => r2
        match wsRun1 r3 with
        | none => none
        | some r4 =>
          if leadsWith "stay".data r4 then some (natOfDigits run) else none
      else none

/-- `extract_duration` of the source. -/
def extract_duration (text : String) : Option Nat :=
  if text.data = [] then none
  else
    let t := pyLowerL text.data
    match searchG (matchFor "day".data) t with
    | some k => some k
    | none =>
      match searchG (matchFor "night".data) t with
      | some k => some k
      | none =>
        match searchG (matchStay "day".data) t with
        | some k => some k
        | none => searchG (matchStay "night".data) t

/-! ## is_valid_date -/

def nonDateWords : List (List Char) :=
  ["banana".data, "hello".data, "hi".data, "thanks".data, "please".data,
   "yes".data, "no".data, "ok".data, "okay".data, "sure".data]

/-- `\d+\s+\w+` at the head of `t`. -/
def matchDW (t : List Char) : Bool :=
  match t with
  | c :: _ =>
    if isDigitC c then
      match wsRun1 (t.dropWhile isDigitC) with
      | some r =>
        match r with
        | c2 :: _ => isWordC c2
        | [] => false
      | none => false
    else false
  | [] => false

/-- `\w+\s+\d+` at the head of `t`. -/
def matchWD (t : List Char) : Bool :=
  match t with
  | c :: _ =>
    if isWordC c then
      match wsRun1 (t.dropWhile isWordC) with
      | some r =>
        match r with
        | c2 :: _ => isDigitC c2
        | [] => false
      | none => false
    else false
  | [] => false

/-- `\d+\s+\w+\s+\d+` at the head of `t`. -/
def matchDWD (t : List Char) : Bool :=
  match t with
  | c :: _ =>
    if isDigitC c then
      match wsRun1 (t.dropWhile isDigitC) with
      | some r =>
        match r with
        | c2 :: _ =>
          if isWordC c2 then
            match wsRun1 (r.dropWhile isWordC) with
            | some r2 =>
              match r2 with
              | c3 :: _ => isDigitC c3
              | [] => false
            | none => false
          else false
        | [] => false
      | none => false
    else false
  | [] => false

def searchB (m : List Char → Bool) : List Char → Bool
  | [] => m []
  | c :: ts => m (c :: ts) || searchB m ts

/-- `is_valid_date` of the source: the "looks like a date" heuristic. -/
def is_valid_date (s : String) : Bool :=
  if s.data = [] ∨ pyStripL s.data = [] then false
  else if pyLowerL s.data ∈ nonDateWords then false
  else
    searchB matchDW (pyLowerL s.data) || searchB matchWD (pyLowerL s.data) ||
      searchB matchDWD (pyLowerL s.data)

/-! ## calculate_checkout -/

/-- `calculate_checkout` of the source: `n` is the `datetime.now()` sample
taken by this call.  The check-in is re-parsed under the same four formats
and year rule as step 3 of `parse_date` (the source duplicates that loop
verbatim); on failure the check-in is returned unchanged. -/
def calculate_checkout (n : NowT) (checkin : String) (dur : Nat) : String :=
  match stepThreeDate n checkin.data with
  | some p => fmtDate (addDays dur p)
  | none => checkin

/-! ## Field validators

Each validator returns the dict of slot updates together with the
user-facing messages dispatched during the call.  A field of type
`Option (Option String)` distinguishes a key that is absent from the
returned dict (`none`) from one explicitly set to `None` (`some none`). -/

def cityEmptyMsg : String := "Please enter a city name."

def cityInvalidMsg : String :=
  "That doesn't look like a city name. Please enter a valid city."

def checkInRejectMsg : String :=
  "That doesn't look like a date. Please enter a valid date (e.g., '5 may', 'tomorrow', '10th')."

def checkOutRejectMsg : String :=
  "That doesn't look like a date. Please enter a valid date (e.g., '8 may', 'tomorrow', '15th')."

def guestsEmptyMsg : String := "Please enter the number of guests."

def guestsRangeMsg : String :=
  "Number of guests should be between 1 and 50. Please enter again."

def guestsNaNMsg : String :=
  "That doesn't look like a number. Please enter the number of guests (e.g., '2', 'three')."

def nonCityWords : List (List Char) :=
  ["banana".data, "hello".data, "hi".data, "thanks".data, "please".data,
   "yes".data, "no".data, "ok".data, "okay".data, "tomorrow".data,
   "today".data, "sure".data]

/-- str.title of Python (ASCII model): a letter after a non-letter is
uppercased, a letter after a letter lowercased. -/
def titleGo : Bool → List Char → List Char
  | _, [] => []
  | prev, c :: r =>
    (if isAlphaC c then (if prev then lowerC c else upperC c) else c) ::
      titleGo (isAlphaC c) r

def titleCase (l : List Char) : List Char := titleGo false l

structure CityRes where
  city : Option String
  msgs : List String
  deriving DecidableEq, Repr

/-- `validate_city` of the source. -/
def validate_city (value : String) : CityRes :=
  if value.data = [] ∨ pyStripL value.data = [] then ⟨none, [cityEmptyMsg]⟩
  else
    let v := pyStripL value.data
    if v ≠ [] ∧ v.all isDigitC then ⟨none, [cityInvalidMsg]⟩
    else if pyLowerL v ∈ nonCityWords then ⟨none, [cityInvalidMsg]⟩
    else ⟨some ⟨titleCase v⟩, []⟩

structure CheckInRes where
  check_in_date : Option String
  check_out_date : Option (Option String)
  msgs : List String
  deriving DecidableEq, Repr

def defaultNow : NowT := ⟨⟨1970, 1, 1⟩, 0⟩

/-- The i-th `datetime.now()` sample of a validator invocation (a check-in
validation executes at most two of them, in order). -/
def sample1 (clock : List NowT) : NowT := clock.headD defaultNow

def sample2 (clock : List NowT) : NowT := (clock.drop 1).headD defaultNow

def gotRangeMsg (ci co : String) : String :=
  "Got it! Check-in on " ++ ci ++ " and check-out on " ++ co ++ "."

def durationMsg (ci co : String) (dur : Nat) : String :=
  "Check-in: " ++ ci ++ ", Check-out: " ++ co ++ " (" ++ Nat.repr dur ++ " days)"

/-- `validate_check_in_date` of the source.  `clock` lists the
`datetime.now()` samples in the order the call takes them: a found range
normalizes its two ends with the first and second sample; otherwise the
single-date `parse_date` takes the first sample and, when a duration from
the initial message applies, `calculate_checkout` takes the second.
`value` is the slot value, `latest` the whole latest utterance, `initial`
the stored initial message (empty when unset). -/
def validate_check_in_date (clock : List NowT) (value latest initial : String) :
    CheckInRes :=
  match extract_date_range (sample1 clock) (sample2 clock) latest with
  | some (ci, co) => ⟨some ci, some (some co), [gotRangeMsg ci co]⟩
  | none =>
    let parsed := parse_date (sample1 clock) value
    if is_valid_date parsed then
      match extract_duration initial with
      | some dur =>
        if dur ≠ 0 then
          let co := calculate_checkout (sample2 clock) parsed dur
          ⟨some parsed, some (some co), [durationMsg parsed co dur]⟩
        else ⟨some parsed, none, []⟩
      | none => ⟨some parsed, none, []⟩
    else ⟨none, none, [checkInRejectMsg]⟩

structure CheckOutRes where
  check_out_date : Option String
  msgs : List String
  deriving DecidableEq, Repr

/-- `validate_check_out_date` of the source. -/
def validate_check_out_date (n : NowT) (value : String) : CheckOutRes :=
  let parsed := parse_date n value
  if is_valid_date parsed then ⟨some parsed, []⟩
  else ⟨none, [checkOutRejectMsg]⟩

/-! ## validate_number_of_guests -/

/-- A slot value as the guest validator receives it: `None`, a string, or
a non-string number (int or float, modelled as a rational; `int(float(x))`
truncates toward zero). -/
inductive GuestVal where
  | vNone : GuestVal
  | vStr : String → GuestVal
  | vNum : ℚ → GuestVal
  deriving DecidableEq

structure GuestsRes where
  number_of_guests : Option ℤ
  msgs : List String
  deriving DecidableEq, Repr

def wordToNum : List (List Char × Nat) :=
  [("one".data, 1), ("two".data, 2), ("three".data, 3), ("four".data, 4),
   ("five".data, 5), ("six".data, 6), ("seven".data, 7), ("eight".data, 8),
   ("nine".data, 9), ("ten".data, 10)]

def lookupWord : List (List Char × Nat) → List Char → Option Nat
  | [], _ => none
  | (w, k) :: rest, t => if t = w then some k else lookupWord rest t

/-- `re.search(r'\d+', s)`: the first maximal digit run. -/
def findDigitRun : List Char → Option (List Char)
  | [] => none
  | c :: r => if isDigitC c then some (c :: r.takeWhile isDigitC) else findDigitRun r

/-- `int(float(q))`: truncation toward zero. -/
def truncQ (q : ℚ) : ℤ := if 0 ≤ q then ⌊q⌋ else ⌈q⌉

/-- The number the try-block of `validate_number_of_guests` computes;
`none` is the `raise ValueError` caught by the handler. -/
def guestsParse (v : GuestVal) : Option ℤ :=
  match v with
  | .vStr s =>
    match lookupWord wordToNum (pyStripL (pyLowerL s.data)) with
    | some k => some (k : ℤ)
    | none =>
      match findDigitRun s.data with
      | some run => some ((natOfDigits run : ℕ) : ℤ)
      | none => none
  | .vNum q => some (truncQ q)
  | .vNone => none

/-- `validate_number_of_guests` of the source. -/
def validate_number_of_guests (v : GuestVal) : GuestsRes :=
  match v with
  | .vNone => ⟨none, [guestsEmptyMsg]⟩
  | .vStr s =>
    if pyStripL s.data = [] then ⟨none, [guestsEmptyMsg]⟩
    else
      match guestsParse (.vStr s) with
      | some g =>
        if 1 ≤ g ∧ g ≤ 50 then ⟨some g, []⟩ else ⟨none, [guestsRangeMsg]⟩
      | none => ⟨none, [guestsNaNMsg]⟩
  | .vNum q =>
    if 1 ≤ truncQ q ∧ truncQ q ≤ 50 then ⟨some (truncQ q), []⟩
    else ⟨none, [guestsRangeMsg]⟩

/-! ## Concrete reference clocks used in examples and counterexamples -/

/-- A reference clock: 2025-05-15, some time after midnight. -/
def demoNow : NowT := ⟨⟨2025, 5, 15⟩, 1⟩

/-- A reference clock in January of the leap year 2024. -/
def leapNow : NowT := ⟨⟨2024, 1, 15⟩, 1⟩

/-- A reference clock: 2024-02-27, some time after midnight. -/
def clockA : NowT := ⟨⟨2024, 2, 27⟩, 1⟩

/-- A reference clock: 2024-02-28, some time after midnight. -/
def clockB : NowT := ⟨⟨2024, 2, 28⟩, 1⟩

/-! ## Helper lemmas -/

theorem leadsWith_length {p t : List Char} (h : leadsWith p t = true) :
    p.length ≤ t.length := by
  induction p generalizing t with
  | nil => simp
  | cons x xs ih =>
    cases t with
    | nil => simp [leadsWith] at h
    | cons c cs =>
      simp only [leadsWith, Bool.and_eq_true] at h
      simpa using Nat.succ_le_succ (ih h.2)

theorem containsSub_length {p t : List Char} (h : containsSub p t = true) :
    p.length ≤ t.length := by
  induction t with
  | nil => simpa using leadsWith_length h
  | cons c cs ih =>
    simp only [containsSub, Bool.or_eq_true] at h
    rcases h with h | h
    · exact leadsWith_length h
    · exact Nat.le_succ_of_le (ih h)

theorem dayMatchFn_length {t : List Char} {d : Nat}
    (h : dayMatchFn t = some d) : t.length ≤ 4 := by
  rcases t with _ | ⟨a, _ | ⟨b, _ | ⟨c, _ | ⟨e, _ | ⟨f, rest⟩⟩⟩⟩⟩ <;>
    simp [dayMatchFn] at h ⊢

/-- A string the bare-day regex accepts is none of the literal relative
terms and does not contain "next week". -/
theorem relKind_of_dayMatch {t : List Char} {d : Nat}
    (h : dayMatchFn t = some d) : relKind t = none := by
  have hlen : t.length ≤ 4 := dayMatchFn_length h
  unfold relKind
  rw [if_neg, if_neg, if_neg, if_neg]
  · intro hc
    have := containsSub_length hc
    simp at this
    omega
  · rintro (he | he)
    · subst he
      rw [(by decide : dayMatchFn "day after tomorrow".data = none)] at h
      cases h
    · subst he
      rw [(by decide : dayMatchFn "day after tmrw".data = none)] at h
      cases h
  · rintro (he | he | he)
    · subst he
      rw [(by decide : dayMatchFn "tomorrow".data = none)] at h
      cases h
    · subst he
      rw [(by decide : dayMatchFn "tmrw".data = none)] at h
      cases h
    · subst he
      rw [(by decide : dayMatchFn "tommorow".data = none)] at h
      cases h
  · intro he
    subst he
    rw [(by decide : dayMatchFn "today".data = none)] at h
    cases h

theorem dayMatchFn_ne_nil {t : List Char} {d : Nat}
    (h : dayMatchFn t = some d) : t ≠ [] := by
  rintro rfl; simp [dayMatchFn] at h

theorem pyLowerL_nil : pyLowerL [] = [] := rfl

theorem pyStripL_nil : pyStripL [] = [] := rfl

theorem parse_date_of_ne {n : NowT} {s : String} (h : s.data ≠ []) :
    parse_date n s = parseCore n (pyStripL (pyLowerL s.data)) := by
  simp [parse_date, h]

theorem parseCore_step3 {n : NowT} {t : List Char}
    (h1 : relKind t = none) (h2 : dayMatchFn t = none) :
    parseCore n t = stepThreeOr n t := by
  simp [parseCore, h1, h2]

/-- The month lengths of the non-leap default year 1900 bound those of
every year. -/
theorem daysInMonth_1900_le (y m : Nat) :
    daysInMonth 1900 m ≤ daysInMonth y m := by
  rcases m with _ | _ | _ | _ | _ | _ | _ | _ | _ | _ | _ | _ | _ | m <;>
    simp [daysInMonth, (by decide : isLeapB 1900 = false)] <;>
    first
    | omega
    | (split <;> omega)

/-- A date produced by strptime has year 1900 and a day valid for its
month in that (non-leap) year. -/
theorem strptimePy_valid {df f : Bool} {t : List Char} {p : PyDate}
    (h : strptimePy df f t = some p) :
    p.year = 1900 ∧ 1 ≤ p.day ∧ p.day ≤ daysInMonth 1900 p.month := by
  cases hf : strptimeFields df f t with
  | none => simp [strptimePy, hf] at h
  | some md =>
    simp only [strptimePy, hf] at h
    unfold mk1900 at h
    by_cases hc : 1 ≤ md.2 ∧ md.2 ≤ daysInMonth 1900 md.1
    · rw [if_pos hc] at h
      cases h
      exact ⟨rfl, hc⟩
    · rw [if_neg hc] at h
      cases h

/-- The year replacement of step 3 never raises on a strptime result: the
day is valid in 1900, hence in every year. -/
theorem replaceBump_some (n : NowT) (p : PyDate)
    (h : p.day ≤ daysInMonth 1900 p.month) :
    ∃ y, replaceBump n p = some ⟨y, p.month, p.day⟩ := by
  unfold replaceBump
  rw [if_pos (le_trans h (daysInMonth_1900_le _ _))]
  split
  · rw [if_pos (le_trans h (daysInMonth_1900_le _ _))]
    exact ⟨_, rfl⟩
  · exact ⟨_, rfl⟩

theorem stepThreeDate_of_first {n : NowT} {t : List Char} {p q : PyDate}
    (h1 : strptimePy true false t = some p) (h2 : replaceBump n p = some q) :
    stepThreeDate n t = some q := by
  simp [stepThreeDate, h1, h2]

/-- Composition: an input that reaches step 3 and parses under "%d %b" is
normalized to the canonical form of the parsed month and day (for some
resolved year, which the canonical form does not show). -/
theorem parse_date_explicit (n : NowT) (s : String) (p : PyDate)
    (hne : s.data ≠ [])
    (hrel : relKind (pyStripL (pyLowerL s.data)) = none)
    (hday : dayMatchFn (pyStripL (pyLowerL s.data)) = none)
    (hstr : strptimePy true false (pyStripL (pyLowerL s.data)) = some p) :
    ∃ y, parse_date n s = fmtDate ⟨y, p.month, p.day⟩ := by
  have hb := strptimePy_valid hstr
  obtain ⟨y, hy⟩ := replaceBump_some n p hb.2.2
  rw [parse_date_of_ne hne, parseCore_step3 hrel hday]
  unfold stepThreeOr
  rw [stepThreeDate_of_first hstr hy]
  exact ⟨y, rfl⟩

theorem parse_date_5may (n : NowT) : parse_date n "5 may" = "05 May" := by
  obtain ⟨y, hy⟩ := parse_date_explicit n "5 may" ⟨1900, 5, 5⟩
    (by decide) (by decide) (by decide) (by decide)
  rw [hy]; with_unfolding_all rfl

theorem parse_date_8may (n : NowT) : parse_date n "8 may" = "08 May" := by
  obtain ⟨y, hy⟩ := parse_date_explicit n "8 may" ⟨1900, 5, 8⟩
    (by decide) (by decide) (by decide) (by decide)
  rw [hy]; with_unfolding_all rfl

theorem addDays_may5 (y : Nat) : addDays 3 ⟨y, 5, 5⟩ = ⟨y, 5, 8⟩ := by
  simp [addDays, nextDay, daysInMonth]

theorem parseCore_bare {n : NowT} {t : List Char} {d : Nat}
    (hm : dayMatchFn t = some d) (hr : 1 ≤ d ∧ d ≤ 31) :
    parseCore n t =
      match step2Target n d with
      | some tgt => fmtDate tgt
      | none => stepThreeOr n t := by
  simp [parseCore, relKind_of_dayMatch hm, hm, hr]

theorem daysInMonth_le_31 (y m : Nat) : daysInMonth y m ≤ 31 := by
  rcases m with _ | _ | _ | _ | _ | _ | _ | _ | _ | _ | _ | _ | _ | m <;>
    simp [daysInMonth] <;>
    first
    | omega
    | (split <;> omega)

/- Canonical "DD Mon" strings, after lowercasing, are strip-stable, match
neither the relative-term step nor the bare-day regex, and parse under the
first strptime format back to their own month and day whenever the day is
valid in the default year 1900. -/
set_option maxHeartbeats 4000000 in
theorem canonFacts :
    ∀ (m : Fin 13) (d : Fin 32), 1 ≤ m.val → 1 ≤ d.val →
      (pyStripL (pyLowerL (pad2 d.val ++ ' ' :: monthAbb m.val)) =
        pyLowerL (pad2 d.val ++ ' ' :: monthAbb m.val) ∧
       relKind (pyLowerL (pad2 d.val ++ ' ' :: monthAbb m.val)) = none ∧
       dayMatchFn (pyLowerL (pad2 d.val ++ ' ' :: monthAbb m.val)) = none ∧
       (d.val ≤ daysInMonth 1900 m.val →
         strptimePy true false (pyLowerL (pad2 d.val ++ ' ' :: monthAbb m.val)) =
           some ⟨1900, m.val, d.val⟩)) := by decide

theorem isWsC_lowerC (c : Char) : isWsC (lowerC c) = isWsC c := by
  unfold lowerC
  split <;> rfl

theorem dropWhile_ws_map (l : List Char) :
    (pyLowerL l).dropWhile isWsC = pyLowerL (l.dropWhile isWsC) := by
  induction l with
  | nil => rfl
  | cons c cs ih =>
    simp only [pyLowerL, List.map_cons, List.dropWhile_cons, isWsC_lowerC] at *
    by_cases h : isWsC c = true
    · simp [h, ih]
    · simp [h]

/-- Lowercasing commutes with stripping (case folding never changes
whether a character is whitespace). -/
theorem pyStrip_pyLower (l : List Char) :
    pyStripL (pyLowerL l) = pyLowerL (pyStripL l) := by
  have hrev : ∀ x : List Char, (pyLowerL x).reverse = pyLowerL x.reverse := by
    intro x; simp [pyLowerL]
  simp only [pyStripL]
  rw [dropWhile_ws_map, hrev, dropWhile_ws_map, hrev]

theorem findDigitRun_mem {l r : List Char} (h : findDigitRun l = some r) :
    ∃ c ∈ l, isDigitC c = true := by
  induction l with
  | nil => cases h
  | cons c cs ih =>
    unfold findDigitRun at h
    by_cases hc : isDigitC c = true
    · exact ⟨c, List.mem_cons_self _ _, hc⟩
    · rw [if_neg (by simp [hc])] at h
      obtain ⟨c', hm, hd⟩ := ih h
      exact ⟨c', List.mem_cons_of_mem _ hm, hd⟩

theorem pyStripL_nil_all {l : List Char} (h : pyStripL l = []) :
    ∀ c ∈ l, isWsC c = true := by
  intro c hc
  unfold pyStripL at h
  rw [List.reverse_eq_nil_iff, List.dropWhile_eq_nil_iff] at h
  have hall : ∀ x ∈ l.dropWhile isWsC, isWsC x = true := by
    intro x hx
    exact h x (List.mem_reverse.mpr hx)
  rw [← List.takeWhile_append_dropWhile (p := isWsC) (l := l)] at hc
  rcases List.mem_append.mp hc with h1 | h1
  · exact List.mem_takeWhile_imp h1
  · exact hall c h1

theorem isDigitC_not_ws {c : Char} (h : isDigitC c = true) : isWsC c = false := by
  unfold isWsC
  apply decide_eq_false
  rintro (rfl | rfl | rfl | rfl | rfl | rfl) <;> exact absurd h (by decide)

theorem lookupWord_mem {tbl : List (List Char × Nat)} {t : List Char} {k : Nat}
    (h : lookupWord tbl t = some k) : ∃ w, (w, k) ∈ tbl := by
  induction tbl with
  | nil => cases h
  | cons e rest ih =>
    obtain ⟨w', k'⟩ := e
    unfold lookupWord at h
    by_cases he : t = w'
    · rw [if_pos he] at h
      cases h
      exact ⟨w', List.mem_cons_self _ _⟩
    · rw [if_neg he] at h
      obtain ⟨w, hw⟩ := ih h
      exact ⟨w, List.mem_cons_of_mem _ hw⟩

theorem wordToNum_bound {w : List Char} {k : Nat} (h : (w, k) ∈ wordToNum) :
    1 ≤ k ∧ k ≤ 10 := by
  have hall : wordToNum.all (fun p => decide (1 ≤ p.2 ∧ p.2 ≤ 10)) = true := by
    decide
  have := List.all_eq_true.mp hall _ h
  simpa using this

/-! ## Claim C7 -/

/-- Claim C7: the guest validator accepts the case-insensitive spelled-out
words "one".."ten" (via the word table, always in range), extracts the
first digit run from digit strings and mixed text and accepts its value
exactly when it lies in 1..50 (clearing the slot with a guidance message
otherwise), rejects digit-free unparseable strings with a guidance
message, converts non-string numeric input by float truncation with the
same 1..50 range gate, and in particular "two" yields 2, "TWO" yields 2,
"3 people" yields 3, while "0" and "51" are rejected. -/
theorem guests_spec :
    (∀ (s : String) (k : Nat),
      lookupWord wordToNum (pyStripL (pyLowerL s.data)) = some k →
      validate_number_of_guests (.vStr s) = ⟨some (k : ℤ), []⟩) ∧
    (∀ (s : String) (run : List Char),
      lookupWord wordToNum (pyStripL (pyLowerL s.data)) = none →
      findDigitRun s.data = some run →
      validate_number_of_guests (.vStr s) =
        (if 1 ≤ (natOfDigits run : ℤ) ∧ (natOfDigits run : ℤ) ≤ 50 then
          ⟨some ((natOfDigits run : ℕ) : ℤ), []⟩
         else ⟨none, [guestsRangeMsg]⟩)) ∧
    (∀ s : String, pyStripL s.data ≠ [] →
      lookupWord wordToNum (pyStripL (pyLowerL s.data)) = none →
      findDigitRun s.data = none →
      validate_number_of_guests (.vStr s) = ⟨none, [guestsNaNMsg]⟩) ∧
    (∀ q : ℚ,
      validate_number_of_guests (.vNum q) =
        (if 1 ≤ truncQ q ∧ truncQ q ≤ 50 then ⟨some (truncQ q), []⟩
         else ⟨none, [guestsRangeMsg]⟩)) ∧
    (validate_number_of_guests (.vStr "two") = ⟨some 2, []⟩ ∧
     validate_number_of_guests (.vStr "TWO") = ⟨some 2, []⟩ ∧
     validate_number_of_guests (.vStr "3 people") = ⟨some 3, []⟩ ∧
     validate_number_of_guests (.vStr "0") = ⟨none, [guestsRangeMsg]⟩ ∧
     validate_number_of_guests (.vStr "51") = ⟨none, [guestsRangeMsg]⟩) := by
  refine ⟨?_, ?_, ?_, ?_, ?_⟩
  · intro s k h
    obtain ⟨w, hw⟩ := lookupWord_mem h
    have hb := wordToNum_bound hw
    have hne : ¬(pyStripL s.data = []) := by
      intro h0
      rw [pyStrip_pyLower, h0] at h
      rw [(by decide :
        lookupWord wordToNum (pyLowerL ([] : List Char)) = none)] at h
      cases h
    have hg : guestsParse (.vStr s) = some (k : ℤ) := by
      simp [guestsParse, h]
    simp [validate_number_of_guests, hne, hg,
      (by omega : 1 ≤ (k : ℤ) ∧ (k : ℤ) ≤ 50)]
  · intro s run hlk hrun
    obtain ⟨c, hcm, hcd⟩ := findDigitRun_mem hrun
    have hne : ¬(pyStripL s.data = []) := by
      intro h0
      have := pyStripL_nil_all h0 c hcm
      rw [isDigitC_not_ws hcd] at this
      cases this
    have hg : guestsParse (.vStr s) = some ((natOfDigits run : ℕ) : ℤ) := by
      simp [guestsParse, hlk, hrun]
    simp only [validate_number_of_guests, if_neg hne, hg]
  · intro s hne hlk hrun
    have hg : guestsParse (.vStr s) = none := by
      simp [guestsParse, hlk, hrun]
    simp [validate_number_of_guests, hne, hg]
  · intro q
    rfl
  · exact ⟨by decide, by decide, by decide, by decide, by decide⟩

/-- Claim C7 witness. -/
theorem guests_spec_w :
    validate_number_of_guests (.vStr "four") = ⟨some 4, []⟩ :=
  guests_spec.1 "four" 4 (by decide)

/-! ## Claim C8 -/

/-- Claim C8 counterexample: "29 Feb" is a canonical "DD Mon" string
denoting a real calendar day (2024-02-29) whose implied year has not
rolled over at the reference clock (2024-01-15), yet normalization does
not return it unchanged: strptime validates the day against the non-leap
default year 1900, so every format fails and the fallback returns the
lowercased "29 feb". -/
theorem parse_date_idempotent_cex :
    parse_date leapNow "29 Feb" = "29 feb" ∧ ("29 feb" : String) ≠ "29 Feb" :=
  ⟨by decide, by decide⟩

/-- Claim C8 (amended): normalization is idempotent on canonical "DD Mon"
strings whose day/month pair is a valid calendar day of the grammar's
non-leap reference year — i.e. every real day-month pair except
February 29 — for every reference clock (the year-rollover state does not
matter). -/
theorem parse_date_idempotent_amended (n : NowT) (y m d : Nat)
    (hm1 : 1 ≤ m) (hm12 : m ≤ 12) (hd1 : 1 ≤ d)
    (hd : d ≤ daysInMonth 1900 m) :
    parse_date n (fmtDate ⟨y, m, d⟩) = fmtDate ⟨y, m, d⟩ := by
  have hd31 : d ≤ 31 := le_trans hd (daysInMonth_le_31 _ _)
  have hF := canonFacts ⟨m, by omega⟩ ⟨d, by omega⟩ hm1 hd1
  have h1 : pyStripL (pyLowerL (pad2 d ++ ' ' :: monthAbb m)) =
      pyLowerL (pad2 d ++ ' ' :: monthAbb m) := hF.1
  have h2 : relKind (pyLowerL (pad2 d ++ ' ' :: monthAbb m)) = none := hF.2.1
  have h3 : dayMatchFn (pyLowerL (pad2 d ++ ' ' :: monthAbb m)) = none :=
    hF.2.2.1
  have h4 : strptimePy true false (pyLowerL (pad2 d ++ ' ' :: monthAbb m)) =
      some ⟨1900, m, d⟩ := hF.2.2.2 hd
  have hdata : (fmtDate ⟨y, m, d⟩).data = pad2 d ++ ' ' :: monthAbb m := rfl
  have hne : (fmtDate ⟨y, m, d⟩).data ≠ [] := by
    rw [hdata]; simp [pad2]
  obtain ⟨yy, hy⟩ := parse_date_explicit n (fmtDate ⟨y, m, d⟩) ⟨1900, m, d⟩
    hne (by rw [hdata, h1]; exact h2) (by rw [hdata, h1]; exact h3)
    (by rw [hdata, h1]; exact h4)
  rw [hy]
  with_unfolding_all rfl

/-- Claim C8 amended witness. -/
theorem parse_date_idempotent_amended_w :
    parse_date demoNow (fmtDate ⟨2025, 5, 5⟩) = fmtDate ⟨2025, 5, 5⟩ :=
  parse_date_idempotent_amended demoNow 2025 5 5 (by decide) (by decide)
    (by decide) (by decide)

/-! ## Claim C1 -/

/-- Claim C1: for a bare day-of-month input (one or two digits, optional
ordinal suffix, value 1..31) the normalizer resolves the day against the
current month when the day is at least the reference day-of-month, and
otherwise rolls to the next month (with year rollover at December),
emitting the zero-padded "DD Mon" form; when the day is not a valid day of
the target month, this step fails and the input falls through to the later
normalization steps (stepThreeOr: the explicit-date formats, else the
fallback). -/
theorem parse_date_bare_day (n : NowT) (s : String) (d : Nat)
    (hm : dayMatchFn (pyStripL (pyLowerL s.data)) = some d)
    (hd1 : 1 ≤ d) (hd31 : d ≤ 31) :
    (n.date.day ≤ d → d ≤ daysInMonth n.date.year n.date.month →
      parse_date n s = fmtDate ⟨n.date.year, n.date.month, d⟩) ∧
    (n.date.day ≤ d → daysInMonth n.date.year n.date.month < d →
      parse_date n s = stepThreeOr n (pyStripL (pyLowerL s.data))) ∧
    (d < n.date.day → n.date.month = 12 →
      parse_date n s = fmtDate ⟨n.date.year + 1, 1, d⟩) ∧
    (d < n.date.day → n.date.month ≠ 12 →
      d ≤ daysInMonth n.date.year (n.date.month + 1) →
      parse_date n s = fmtDate ⟨n.date.year, n.date.month + 1, d⟩) ∧
    (d < n.date.day → n.date.month ≠ 12 →
      daysInMonth n.date.year (n.date.month + 1) < d →
      parse_date n s = stepThreeOr n (pyStripL (pyLowerL s.data))) := by
  have hne : s.data ≠ [] := by
    intro h0
    rw [h0] at hm
    rw [(by decide :
      dayMatchFn (pyStripL (pyLowerL ([] : List Char))) = none)] at hm
    cases hm
  have base : parse_date n s =
      match step2Target n d with
      | some tgt => fmtDate tgt
      | none => stepThreeOr n (pyStripL (pyLowerL s.data)) := by
    rw [parse_date_of_ne hne, parseCore_bare hm ⟨hd1, hd31⟩]
  refine ⟨?_, ?_, ?_, ?_, ?_⟩
  · intro h1 h2
    rw [base]
    unfold step2Target
    rw [if_pos h1, if_pos ⟨hd1, h2⟩]
  · intro h1 h2
    rw [base]
    unfold step2Target
    rw [if_pos h1, if_neg (by omega)]
  · intro h1 h2
    rw [base]
    unfold step2Target
    rw [if_neg (by omega), if_pos h2,
      if_pos ⟨hd1, by rw [(by simp [daysInMonth] :
        daysInMonth (n.date.year + 1) 1 = 31)]; exact hd31⟩]
  · intro h1 h2 h3
    rw [base]
    unfold step2Target
    rw [if_neg (by omega), if_neg h2, if_pos ⟨hd1, h3⟩]
  · intro h1 h2 h3
    rw [base]
    unfold step2Target
    rw [if_neg (by omega), if_neg h2, if_neg (by omega)]

/-- Claim C1 witness: with the reference clock at 2025-05-15, "20" stays
in May, "5th" rolls to June, and "31" with an April clock falls through
(April has 30 days) and, no later step matching, comes back as "31". -/
theorem parse_date_bare_day_w :
    parse_date demoNow "20" = "20 May" ∧ parse_date demoNow "5th" = "05 Jun" ∧
      parse_date ⟨⟨2025, 4, 20⟩, 1⟩ "31" = "31" := by
  refine ⟨?_, ?_, ?_⟩
  · rw [(parse_date_bare_day demoNow "20" 20 (by decide) (by decide)
      (by decide)).1 (by decide) (by decide)]
    decide
  · rw [(parse_date_bare_day demoNow "5th" 5 (by decide) (by decide)
      (by decide)).2.2.2.1 (by decide) (by decide) (by decide)]
    decide
  · rw [(parse_date_bare_day ⟨⟨2025, 4, 20⟩, 1⟩ "31" 31 (by decide) (by decide)
      (by decide)).2.1 (by decide) (by decide)]
    decide

/-! ## Claim C2 -/

/-- Claim C2: extract_date_range tries exactly three range shapes in
order — day-to-day-with-shared-month, date-to-date, ordinal-to-ordinal —
takes the first that matches (leftmost occurrence), passes each extracted
end through parse_date before returning it, returns none when no shape
matches, and in particular "5 to 8 may" yields check-in "05 May" and
check-out "08 May" for every reference clock. -/
theorem extract_date_range_spec (n : NowT) (text : String) :
    (∀ a b w, searchG matchP1 (pyLowerL text.data) = some (a, b, w) →
      extract_date_range n n text =
        some (parse_date n ⟨a ++ ' ' :: w⟩, parse_date n ⟨b ++ ' ' :: w⟩)) ∧
    (searchG matchP1 (pyLowerL text.data) = none →
      ∀ g1 g2, searchG matchP2 (pyLowerL text.data) = some (g1, g2) →
      extract_date_range n n text =
        some (parse_date n ⟨g1⟩, parse_date n ⟨g2⟩)) ∧
    (searchG matchP1 (pyLowerL text.data) = none →
      searchG matchP2 (pyLowerL text.data) = none →
      ∀ g1 g2, searchG matchP3 (pyLowerL text.data) = some (g1, g2) →
      extract_date_range n n text =
        some (parse_date n ⟨g1⟩, parse_date n ⟨g2⟩)) ∧
    (searchG matchP1 (pyLowerL text.data) = none →
      searchG matchP2 (pyLowerL text.data) = none →
      searchG matchP3 (pyLowerL text.data) = none →
      extract_date_range n n text = none) ∧
    (∀ m : NowT,
      extract_date_range m m "5 to 8 may" = some ("05 May", "08 May")) := by
  refine ⟨?_, ?_, ?_, ?_, ?_⟩
  · intro a b w h
    simp [extract_date_range, rangeGroups, h]
  · intro h1 g1 g2 h2
    simp [extract_date_range, rangeGroups, h1, h2]
  · intro h1 h2 g1 g2 h3
    simp [extract_date_range, rangeGroups, h1, h2, h3]
  · intro h1 h2 h3
    simp [extract_date_range, rangeGroups, h1, h2, h3]
  · intro m
    have hs : rangeGroups (pyLowerL ("5 to 8 may" : String).data) =
        some ("5 may".data, "8 may".data) := by decide
    have e1 : (⟨"5 may".data⟩ : String) = "5 may" := rfl
    have e2 : (⟨"8 may".data⟩ : String) = "8 may" := rfl
    simp only [extract_date_range, hs]
    rw [e1, e2, parse_date_5may, parse_date_8may]

/-- Claim C2 witness: a text with no range shape yields none. -/
theorem extract_date_range_spec_w :
    extract_date_range demoNow demoNow "no range here" = none :=
  (extract_date_range_spec demoNow "no range here").2.2.2.1
    (by decide) (by decide) (by decide)

/-! ## Claim C6 -/

/-- Claim C6: calculate_checkout re-parses the check-in under the same
four-ordering day/month grammar and year-resolution rule as step 3 of
parse_date (the shared stepThreeDate), adds the duration in days, and
re-emits the result in canonical "DD Mon" form; a check-in that the
grammar cannot parse is returned unchanged rather than failing; and in
particular calculate_checkout "05 May" 3 = "08 May" for every reference
clock. -/
theorem calculate_checkout_spec :
    (∀ (n : NowT) (s : String) (dur : Nat) (p : PyDate),
      stepThreeDate n s.data = some p →
      calculate_checkout n s dur = fmtDate (addDays dur p)) ∧
    (∀ (n : NowT) (s : String) (dur : Nat),
      stepThreeDate n s.data = none → calculate_checkout n s dur = s) ∧
    (∀ m : NowT, calculate_checkout m "05 May" 3 = "08 May") := by
  refine ⟨?_, ?_, ?_⟩
  · intro n s dur p h
    simp [calculate_checkout, h]
  · intro n s dur h
    simp [calculate_checkout, h]
  · intro m
    have h1 : strptimePy true false ("05 May" : String).data =
        some ⟨1900, 5, 5⟩ := by decide
    obtain ⟨y, hy⟩ := replaceBump_some m ⟨1900, 5, 5⟩ (by decide)
    have h3 := stepThreeDate_of_first h1 hy
    rw [show calculate_checkout m "05 May" 3 = fmtDate (addDays 3 ⟨y, 5, 5⟩)
      from by simp [calculate_checkout, h3]]
    rw [addDays_may5]
    with_unfolding_all rfl

/-- Claim C6 witness: an unparseable check-in comes back unchanged. -/
theorem calculate_checkout_spec_w :
    calculate_checkout demoNow "junk" 3 = "junk" :=
  calculate_checkout_spec.2.1 demoNow "junk" 3 (by decide)

/-! ## Claim C3 -/

/-- Claim C3: whenever the check-in validator finds a date range in the
whole latest utterance (not just the slot value), its returned update sets
both check_in_date and check_out_date to the normalized ends of the range
in that single call, and the single-date path is skipped entirely — the
result is independent of the slot value and of the stored initial message,
so no single-date normalization, duration lookup or checkout derivation
contributes to it. -/
theorem checkin_range_sets_both (clock : List NowT)
    (value latest initial : String) (a b : List Char)
    (h : rangeGroups (pyLowerL latest.data) = some (a, b)) :
    validate_check_in_date clock value latest initial =
      ⟨some (parse_date (sample1 clock) ⟨a⟩),
       some (some (parse_date (sample2 clock) ⟨b⟩)),
       [gotRangeMsg (parse_date (sample1 clock) ⟨a⟩)
          (parse_date (sample2 clock) ⟨b⟩)]⟩ := by
  simp [validate_check_in_date, extract_date_range, h]

/-- Claim C3 witness: the utterance "10th to 12th" sets both slots in one
call (even though the slot value is junk and the initial message carries a
duration, neither is consulted). -/
theorem checkin_range_sets_both_w :
    validate_check_in_date [demoNow, demoNow] "banana" "10th to 12th"
        "for 3 days" =
      ⟨some "10 Jun", some (some "12 Jun"), [gotRangeMsg "10 Jun" "12 Jun"]⟩ := by
  rw [checkin_range_sets_both [demoNow, demoNow] "banana" "10th to 12th"
    "for 3 days" "10th".data "12th".data (by decide)]
  decide

/-! ## Claim C4 -/

/-- Claim C4: when no range is found in the latest utterance and the
single-date path fails the "looks like a date" validation of the
normalized value, the returned slot update leaves both date slots unset —
check_in_date is explicitly cleared and check_out_date is assigned
nothing — and a user-facing rejection message is emitted. -/
theorem checkin_failure_clears (clock : List NowT)
    (value latest initial : String)
    (hr : rangeGroups (pyLowerL latest.data) = none)
    (hv : is_valid_date (parse_date (sample1 clock) value) = false) :
    validate_check_in_date clock value latest initial =
      ⟨none, none, [checkInRejectMsg]⟩ := by
  simp [validate_check_in_date, extract_date_range, hr, hv]

/-- Claim C4 witness: the input "banana" fails validation and clears the
date slots with a rejection message. -/
theorem checkin_failure_clears_w :
    validate_check_in_date [demoNow, demoNow] "banana" "banana" "" =
      ⟨none, none, [checkInRejectMsg]⟩ :=
  checkin_failure_clears [demoNow, demoNow] "banana" "banana" ""
    (by decide) (by decide)

/-! ## Claim C5 -/

/-- Claim C5 counterexample: "Banana" matches no normalization step, yet
parse_date does not return it unchanged — it returns the lowercased form
"banana". -/
theorem parse_date_fallback_cex :
    parse_date demoNow "Banana" = "banana" ∧
      ("banana" : String) ≠ "Banana" :=
  ⟨by decide, by decide⟩

/-- Claim C5 (amended): for every input string on which no normalization
step succeeds (not a literal relative term, not a bare day-of-month
resolvable in its target month, not parseable under any of the four
day/month orderings), parse_date silently returns the lowercased,
whitespace-stripped input — i.e. the input unchanged only up to case
folding and surrounding whitespace. -/
theorem parse_date_fallback_amended (n : NowT) (s : String)
    (h0 : s.data ≠ [])
    (hrel : relKind (pyStripL (pyLowerL s.data)) = none)
    (hbare : ∀ d, dayMatchFn (pyStripL (pyLowerL s.data)) = some d →
      step2Target n d = none)
    (hp : stepThreeDate n (pyStripL (pyLowerL s.data)) = none) :
    parse_date n s = ⟨pyStripL (pyLowerL s.data)⟩ := by
  rw [parse_date_of_ne h0]
  cases hd : dayMatchFn (pyStripL (pyLowerL s.data)) with
  | none => simp [parseCore, hrel, hd, stepThreeOr, hp]
  | some d =>
    by_cases hr : 1 ≤ d ∧ d ≤ 31
    · simp [parseCore, hrel, hd, hr, hbare d hd, stepThreeOr, hp]
    · simp [parseCore, hrel, hd, hr, stepThreeOr, hp]

/-! ## Claim C9 -/

/-- Claim C9: no exception propagates from any validator — each embedded
validator is a total function (every fallible primitive of the source,
strptime, datetime.replace and numeric parsing, is an Option whose none
branch is the except handler), and on every input it terminates with a
decision: either an accepted value, or a cleared slot together with a
user-facing guidance message. -/
theorem validators_total :
    (∀ v : String,
      (∃ c, validate_city v = ⟨some c, []⟩) ∨
      (∃ msg, validate_city v = ⟨none, [msg]⟩)) ∧
    (∀ (clock : List NowT) (value latest initial : String),
      (∃ ci, (validate_check_in_date clock value latest initial).check_in_date
          = some ci) ∨
      ((validate_check_in_date clock value latest initial).check_in_date
          = none ∧
       (validate_check_in_date clock value latest initial).msgs ≠ [])) ∧
    (∀ (n : NowT) (v : String),
      (∃ co, validate_check_out_date n v = ⟨some co, []⟩) ∨
      validate_check_out_date n v = ⟨none, [checkOutRejectMsg]⟩) ∧
    (∀ g : GuestVal,
      (∃ k, validate_number_of_guests g = ⟨some k, []⟩) ∨
      (∃ msg, validate_number_of_guests g = ⟨none, [msg]⟩)) := by
  refine ⟨?_, ?_, ?_, ?_⟩
  · intro v
    simp only [validate_city]
    split_ifs
    · right; exact ⟨_, rfl⟩
    · right; exact ⟨_, rfl⟩
    · right; exact ⟨_, rfl⟩
    · left; exact ⟨_, rfl⟩
  · intro clock value latest initial
    cases hx : extract_date_range (sample1 clock) (sample2 clock) latest with
    | some pr =>
      obtain ⟨a, b⟩ := pr
      left
      exact ⟨a, by simp [validate_check_in_date, hx]⟩
    | none =>
      by_cases hv : is_valid_date (parse_date (sample1 clock) value) = true
      · left
        cases hd : extract_duration initial with
        | some dur =>
          by_cases h0 : dur = 0
          · exact ⟨parse_date (sample1 clock) value,
              by simp [validate_check_in_date, hx, hv, hd, h0]⟩
          · exact ⟨parse_date (sample1 clock) value,
              by simp [validate_check_in_date, hx, hv, hd, h0]⟩
        | none =>
          exact ⟨parse_date (sample1 clock) value,
            by simp [validate_check_in_date, hx, hv, hd]⟩
      · right
        constructor
        · simp [validate_check_in_date, hx, hv]
        · simp [validate_check_in_date, hx, hv]
  · intro n v
    by_cases hv : is_valid_date (parse_date n v) = true
    · left; exact ⟨parse_date n v, by simp [validate_check_out_date, hv]⟩
    · right; simp [validate_check_out_date, hv]
  · intro g
    cases g with
    | vNone => right; exact ⟨_, rfl⟩
    | vStr s =>
      by_cases h0 : pyStripL s.data = []
      · right; exact ⟨guestsEmptyMsg, by simp [validate_number_of_guests, h0]⟩
      · cases hg : guestsParse (.vStr s) with
        | some k =>
          by_cases hr : 1 ≤ k ∧ k ≤ 50
          · left
            exact ⟨k, by simp [validate_number_of_guests, h0, hg, hr]⟩
          · right
            exact ⟨guestsRangeMsg, by simp [validate_number_of_guests, h0, hg, hr]⟩
        | none =>
          right
          exact ⟨guestsNaNMsg, by simp [validate_number_of_guests, h0, hg]⟩
    | vNum q =>
      by_cases hr : 1 ≤ truncQ q ∧ truncQ q ≤ 50
      · left; exact ⟨truncQ q, by simp [validate_number_of_guests, hr]⟩
      · right; exact ⟨guestsRangeMsg, by simp [validate_number_of_guests, hr]⟩

/-! ## Claim C10 -/

/-- Claim C10 counterexample: two runs of the check-in validator on
identical text inputs whose clocks agree on the first datetime.now()
sample but differ on the second produce different results (check-out
"29 Feb" against "01 Mar"), so a validator invocation is not a function
of its inputs and a single wall-clock reference: parse_date and
calculate_checkout each sample now separately within one call. -/
theorem single_now_cex :
    validate_check_in_date [clockA, clockA] "28 feb" "28 feb" "for 1 day" ≠
      validate_check_in_date [clockA, clockB] "28 feb" "28 feb" "for 1 day" := by
  decide

/-- Claim C10 (amended): each internal date computation samples its own
now: a check-in validator invocation takes at most two samples, in
execution order, and its result is a deterministic function of its text
inputs together with the first two clock samples — distinct computations
within one call may therefore observe different now values. -/
theorem single_now_amended (c₁ c₂ : List NowT) (value latest initial : String)
    (h : c₁.take 2 = c₂.take 2) :
    validate_check_in_date c₁ value latest initial =
      validate_check_in_date c₂ value latest initial := by
  have h1 : sample1 c₁ = sample1 c₂ ∧ sample2 c₁ = sample2 c₂ := by
    rcases c₁ with _ | ⟨a, _ | ⟨b, t⟩⟩ <;>
      rcases c₂ with _ | ⟨x, _ | ⟨z, t'⟩⟩ <;>
      simp_all [sample1, sample2, List.take]
  unfold validate_check_in_date
  rw [h1.1, h1.2]

/-- Claim C10 amended witness: a third sample beyond the first two never
matters. -/
theorem single_now_amended_w :
    validate_check_in_date [clockA, clockB, clockA] "5 may" "5 may" "" =
      validate_check_in_date [clockA, clockB] "5 may" "5 may" "" :=
  single_now_amended [clockA, clockB, clockA] [clockA, clockB] "5 may"
    "5 may" "" (by decide)

/-- Claim C5 amended witness. -/
theorem parse_date_fallback_amended_w :
    parse_date demoNow "Banana" = "banana" := by
  have h := parse_date_fallback_amended demoNow "Banana" (by decide) (by decide)
    (by
      intro d hd
      rw [(by decide :
        dayMatchFn (pyStripL (pyLowerL ("Banana" : String).data)) = none)] at hd
      cases hd)
    (by decide)
  rw [h]
  decide

end RasaBooking
